import Mathlib

/-
Verification of the adapter/collector subsystem of the torchrl-style RL
library (spec.md) and of `torchrl/modules/tensordict_module/helpers.py`.

The environment wrapper / rollout / parallel-environment / data-collector
code is not part of the repository's source files (only its tests and
callers are), so those components are modelled from the specification
(spec.md sections 3-4.5); definitions carrying a doc comment starting with
`Modelled from the spec:` name the missing source they stand for.
`partial_tensordictmodule` is embedded directly from
src/torchrl/modules/tensordict_module/helpers.py.
-/

/-- Tensor dtypes appearing in the data model (spec section 3: a Spec is
a shape/dtype/device/bounds descriptor). -/
inductive Dtype where
  | float32
  | int64
  | uint8
  | boolean
deriving DecidableEq

/-- Devices a tensor may live on. -/
inductive Device where
  | cpu
  | cuda (idx : Nat)
deriving DecidableEq

/-- A tensor: shape, dtype, device and flattened integer data (the data
model needs only elementwise-comparable contents). -/
structure Tensor where
  shape : List Nat
  dtype : Dtype
  device : Device
  data : List Int
deriving DecidableEq

/-- Modelled from the spec: a Spec object (spec section 3), the semantic
descriptor of one tensor slot: shape, dtype, device and optional bounds.
The Spec class itself is not in the repository's source files. -/
structure Spec where
  shape : List Nat
  dtype : Dtype
  device : Device
  low : Option Int
  high : Option Int
deriving DecidableEq

/-- Number of elements of a shape. -/
def numel (shape : List Nat) : Nat :=
  shape.foldr (fun a b => a * b) 1

/-- Modelled from the spec: the zero/placeholder tensor a spec synthesizes
(spec section 4.2, fake-tensordict generation). -/
def zeros (sp : Spec) : Tensor :=
  ⟨sp.shape, sp.dtype, sp.device, List.replicate (numel sp.shape) 0⟩

/-- Modelled from the spec: validation of a tensor against a spec
(spec section 3 invariant: shape/dtype/device must match exactly;
out-of-bounds values are permitted unless explicitly enforced). -/
def validate (sp : Spec) (t : Tensor) : Bool :=
  t.shape == sp.shape && t.dtype == sp.dtype && t.device == sp.device

/-- Modelled from the spec: `fake_tensordict()` (spec section 4.2) builds a
placeholder tensor collection from the spec objects alone, without invoking
the simulator: its input is only the list of (key, spec) pairs. -/
def fake_tensordict (specs : List (String × Spec)) : List (String × Tensor) :=
  specs.map (fun p => (p.1, zeros p.2))

/-- Metadata (key, shape, dtype, device) of every entry of a tensor
collection, in order. -/
def tdMeta (td : List (String × Tensor)) : List (String × List Nat × Dtype × Device) :=
  td.map (fun p => (p.1, p.2.shape, p.2.dtype, p.2.device))

/-- Metadata (key, shape, dtype, device) promised by a list of specs. -/
def specMeta (specs : List (String × Spec)) : List (String × List Nat × Dtype × Device) :=
  specs.map (fun p => (p.1, p.2.shape, p.2.dtype, p.2.device))

/- ------------------------------------------------------------------ -/
/- Embedding of src/torchrl/modules/tensordict_module/helpers.py       -/
/- ------------------------------------------------------------------ -/

/-- A neural module as `partial_tensordictmodule` sees it: either the module
produced by instantiating the partial module, or that module wrapped in
`NormalParamWrapper` (helpers.py line 42). -/
inductive PyModule where
  | instantiated (id : Nat)
  | NormalParamWrapper (inner : PyModule)
deriving DecidableEq

/-- The `TensorDictModule(module=..., in_keys=..., out_keys=..., spec=...,
safe=...)` constructed at helpers.py lines 44-50. -/
structure TensorDictModule where
  module : PyModule
  in_keys : List String
  out_keys : List String
  spec : Option Spec
  safe : Bool
deriving DecidableEq

/-- Errors of the helper: `KeyError` raised by the dict lookup
`_WRAPPER_DICT[wrapper]` at helpers.py line 42. -/
inductive HelperError where
  | keyError (key : String)
deriving DecidableEq

/-- `_WRAPPER_DICT` of helpers.py lines 18-20: maps the string
"normal_param" to the `NormalParamWrapper` constructor. -/
def _WRAPPER_DICT : List (String × (PyModule → PyModule)) :=
  [("normal_param", PyModule.NormalParamWrapper)]

/-- Python dict subscription `d[k]`: the value at `k`, or `KeyError k`. -/
def dictGet (d : List (String × (PyModule → PyModule))) (k : String) :
    Except HelperError (PyModule → PyModule) :=
  match d.lookup k with
  | some f => .ok f
  | none => .error (.keyError k)

/-- `partial_tensordictmodule` of helpers.py lines 23-50: instantiates
`partial_module(**kwargs)`, wraps it via `_WRAPPER_DICT[wrapper]` when
`wrapper is not None`, and returns the `TensorDictModule`. -/
def partial_tensordictmodule {α : Type} (partial_module : α → PyModule)
    (kwargs : α) (in_keys out_keys : List String) (spec : Option Spec)
    (safe : Bool) (wrapper : Option String) :
    Except HelperError TensorDictModule :=
  let module := partial_module kwargs
  match wrapper with
  | none => .ok ⟨module, in_keys, out_keys, spec, safe⟩
  | some w =>
    match dictGet _WRAPPER_DICT w with
    | .ok f => .ok ⟨f module, in_keys, out_keys, spec, safe⟩
    | .error e => .error e

/- ------------------------------------------------------------------ -/
/- Environment wrapper, modelled from spec sections 4.1 and 4.4        -/
/- ------------------------------------------------------------------ -/

/-- Errors of the stepping protocol (spec section 7: validation errors,
sequencing errors). -/
inductive EnvError where
  | missingKey (k : String)
  | validationError
  | stepBeforeReset
deriving DecidableEq

/-- Modelled from the spec: the deterministic simulator behind an
environment wrapper (spec section 4.1 consumes simulator
reset/step/seed/render calls; the wrapper source is not in the
repository's files). All fields are functions, so the simulator is
deterministic by construction, which is the spec's standing assumption
("given a deterministic simulator"). `drawAction` is the action-spec
sampler the default rollout policy uses, threading an RNG state. -/
structure Sim (σ : Type) where
  init : Nat → σ
  step : σ → Tensor → σ
  rawObs : σ → List (String × Tensor)
  reward : σ → Int
  done : σ → Bool
  drawAction : Nat → Tensor × Nat
  effSeed : Nat → Nat
  obsSpecs : List (String × Spec)
  actionSpec : Spec

/-- Modelled from the spec: the environment wrapper's mutable state
(spec section 4.1): the wrapped simulator, the `frame_skip` configuration,
the current simulator state (none before reset — stepping then is a
sequencing error), the RNG state of the rollout policy, and the seed the
next reset will use. -/
structure Env (σ : Type) where
  sim : Sim σ
  frame_skip : Nat
  state : Option σ
  rng : Nat
  storedSeed : Nat

/-- One step's transition: the post-step ("next") observation collection,
the action taken, the reward and the done flag (spec section 3,
"Transition / step collection"). -/
structure StepTd where
  obs : List (String × Tensor)
  action : Tensor
  reward : Int
  done : Bool
deriving DecidableEq

deriving instance DecidableEq for Except

/-- Modelled from the spec: reading the simulator's raw observation through
the spec objects (spec section 7a: a tensor mismatching its spec fails
loudly with a validation error; spec section 3: reset/step keys follow the
spec's key set). -/
def readObs (specs : List (String × Spec)) (raw : List (String × Tensor)) :
    Except EnvError (List (String × Tensor)) :=
  match specs with
  | [] => .ok []
  | (k, sp) :: rest =>
    match raw.lookup k with
    | none => .error (.missingKey k)
    | some t =>
      if validate sp t then
        match readObs rest raw with
        | .ok td => .ok ((k, t) :: td)
        | .error e => .error e
      else .error .validationError

/-- Modelled from the spec: `set_seed(seed) -> effective_seed`
(spec section 4.1). Seeding overwrites the wrapper's RNG state and the
seed the next reset uses, and discards any current episode state; the
effective seed is the simulator's normalization of the requested one. -/
def set_seed {σ : Type} (e : Env σ) (seed : Nat) : Env σ × Nat :=
  ({ e with state := none, rng := seed, storedSeed := seed },
   e.sim.effSeed seed)

/-- Modelled from the spec: `reset() -> transition` (spec section 4.1):
initializes the simulator from the stored seed and returns the initial
observation collection, validated against the observation specs. -/
def reset {σ : Type} (e : Env σ) : Except EnvError (StepTd × Env σ) :=
  let s := e.sim.init e.storedSeed
  match readObs e.sim.obsSpecs (e.sim.rawObs s) with
  | .error err => .error err
  | .ok obs =>
    .ok (⟨obs, zeros e.sim.actionSpec, 0, e.sim.done s⟩,
         { e with state := some s })

/-- Modelled from the spec: the `frame_skip` loop (spec section 4.1): the
underlying action is repeated for `n` native simulator steps and the
rewards of the skipped steps are accumulated; only the final state is
kept. -/
def skipSteps {σ : Type} (sim : Sim σ) : Nat → σ → Tensor → σ × Int
  | 0, s, _ => (s, 0)
  | Nat.succ n, s, a =>
    let s1 := sim.step s a
    let r := skipSteps sim n s1 a
    (r.1, sim.reward s1 + r.2)

/-- Modelled from the spec: `step(action) -> transition`
(spec section 4.1): a sequencing error before reset, a validation error on
an action mismatching the action spec; otherwise the action is applied for
`frame_skip` native steps and the single final transition is returned with
the accumulated reward. -/
def stepEnv {σ : Type} (e : Env σ) (a : Tensor) :
    Except EnvError (StepTd × Env σ) :=
  match e.state with
  | none => .error .stepBeforeReset
  | some s =>
    if validate e.sim.actionSpec a then
      let sr := skipSteps e.sim e.frame_skip s a
      match readObs e.sim.obsSpecs (e.sim.rawObs sr.1) with
      | .error err => .error err
      | .ok obs => .ok (⟨obs, a, sr.2, e.sim.done sr.1⟩,
                        { e with state := some sr.1 })
    else .error .validationError

/-- Modelled from the spec: the rollout engine's stepping loop
(spec section 4.4): draw an action from the RNG, step (with frame skip),
append the transition, carry the next state forward, and stop on episode
termination or when the step budget runs out. -/
def rolloutSteps {σ : Type} (sim : Sim σ) (fs : Nat) :
    Nat → σ → Nat → Except EnvError (List StepTd)
  | 0, _, _ => .ok []
  | Nat.succ fuel, s, rng =>
    let ar := sim.drawAction rng
    let sr := skipSteps sim fs s ar.1
    match readObs sim.obsSpecs (sim.rawObs sr.1) with
    | .error e => .error e
    | .ok obs =>
      if sim.done sr.1 then .ok [⟨obs, ar.1, sr.2, true⟩]
      else
        match rolloutSteps sim fs fuel sr.1 ar.2 with
        | .error e => .error e
        | .ok tds => .ok (⟨obs, ar.1, sr.2, false⟩ :: tds)

/-- Modelled from the spec: `rollout(max_steps)` (spec section 4.4):
drives repeated steps from the current state, a sequencing error when no
reset has happened. -/
def rollout {σ : Type} (e : Env σ) (max_steps : Nat) :
    Except EnvError (List StepTd) :=
  match e.state with
  | none => .error .stepBeforeReset
  | some s => rolloutSteps e.sim e.frame_skip max_steps s e.rng

/-- One full run as the tests perform it: `set_seed(seed)`, `reset()`,
`rollout(max_steps)`; the result is the effective seed, and (when no
validation error occurs) the reset transition with the trajectory. -/
def runOnce {σ : Type} (e : Env σ) (seed max_steps : Nat) :
    Nat × Except EnvError (StepTd × List StepTd) :=
  let sr := set_seed e seed
  (sr.2,
   match reset sr.1 with
   | .error err => .error err
   | .ok tdr =>
     match rollout tdr.2 max_steps with
     | .error err => .error err
     | .ok tds => .ok (tdr.1, tds))

/-- The fake per-step transition an environment synthesizes from its specs
alone (spec section 4.2): placeholder observations from the observation
specs, a zero action from the action spec, zero reward, not done. -/
def fake_step {σ : Type} (sim : Sim σ) : StepTd :=
  ⟨fake_tensordict sim.obsSpecs, zeros sim.actionSpec, 0, false⟩

/-- Metadata of a transition: per-key (key, shape, dtype, device) of the
observation collection, and shape/dtype/device of the action tensor. -/
def stepMeta (td : StepTd) :
    List (String × List Nat × Dtype × Device) × List Nat × Dtype × Device :=
  (tdMeta td.obs, td.action.shape, td.action.dtype, td.action.device)

/-- A one-element int64 observation tensor holding `k`. -/
def obsT (k : Int) : Tensor := ⟨[1], .int64, .cpu, [k]⟩

/-- The toy action tensor the toy simulators draw. -/
def actT : Tensor := ⟨[1], .float32, .cpu, [0]⟩

/-- The toy action spec `actT` conforms to. -/
def toyActionSpec : Spec := ⟨[1], .float32, .cpu, none, none⟩

/-- The toy observation spec list of the toy simulators. -/
def toyObsSpecs : List (String × Spec) :=
  [("observation", ⟨[1], .int64, .cpu, none, none⟩)]

/-- A deterministic toy simulator with 4-step episodes (spec section 8
scenario): the state counts native steps and the episode terminates when
the counter reaches 4. -/
def fourStepSim : Sim Nat where
  init := fun _ => 0
  step := fun s _ => s + 1
  rawObs := fun s => [("observation", obsT (Int.ofNat s))]
  reward := fun _ => 1
  done := fun s => decide (4 ≤ s)
  drawAction := fun rng => (actT, rng + 1)
  effSeed := fun seed => seed
  obsSpecs := toyObsSpecs
  actionSpec := toyActionSpec

/-- The 4-step toy environment, already reset, with `frame_skip = 1`. -/
def fourStepEnv : Env Nat := ⟨fourStepSim, 1, some 0, 0, 0⟩

/-- The same toy simulator wrapped with `frame_skip = 3`, already reset. -/
def skipEnv : Env Nat := ⟨fourStepSim, 3, some 0, 0, 0⟩

/-- The trajectory `rollout fourStepEnv 10` produces: four transitions, the
fourth terminal. -/
def fourStepTds : List StepTd :=
  [⟨[("observation", obsT 1)], actT, 1, false⟩,
   ⟨[("observation", obsT 2)], actT, 1, false⟩,
   ⟨[("observation", obsT 3)], actT, 1, false⟩,
   ⟨[("observation", obsT 4)], actT, 1, true⟩]

/-- A seed-sensitive toy simulator: the initial state is the seed itself and
observations expose the state, so different seeds give different
trajectories. -/
def seedSim : Sim Nat where
  init := fun seed => seed
  step := fun s _ => s + 1
  rawObs := fun s => [("observation", obsT (Int.ofNat s))]
  reward := fun _ => 0
  done := fun _ => false
  drawAction := fun rng => (actT, rng + 1)
  effSeed := fun seed => seed
  obsSpecs := toyObsSpecs
  actionSpec := toyActionSpec

/-- A fresh (unreset) environment over the seed-sensitive simulator. -/
def seedEnv : Env Nat := ⟨seedSim, 1, none, 0, 0⟩

/-- A seed-insensitive toy simulator: a single state, constant
observations; every seed gives the same trajectory. -/
def constSim : Sim Unit where
  init := fun _ => ()
  step := fun _ _ => ()
  rawObs := fun _ => [("observation", obsT 0)]
  reward := fun _ => 0
  done := fun _ => false
  drawAction := fun rng => (actT, rng + 1)
  effSeed := fun seed => seed
  obsSpecs := toyObsSpecs
  actionSpec := toyActionSpec

/-- A fresh (unreset) environment over the seed-insensitive simulator. -/
def constEnv : Env Unit := ⟨constSim, 1, none, 0, 0⟩

/- ------------------------------------------------------------------ -/
/- Parallel environment, modelled from spec section 4.3                -/
/- ------------------------------------------------------------------ -/

/-- Modelled from the spec: the reset fan-out of a parallel environment
(spec section 4.3, whose source is not in the repository's files): every
worker resets, a worker failure propagates to the caller, the per-worker
transitions are gathered in worker order. -/
def resetAll {σ : Type} :
    List (Env σ) → Except EnvError (List StepTd × List (Env σ))
  | [] => .ok ([], [])
  | e :: es =>
    match reset e with
    | .error err => .error err
    | .ok r =>
      match resetAll es with
      | .error err => .error err
      | .ok rs => .ok (r.1 :: rs.1, r.2 :: rs.2)

/-- Modelled from the spec: the step fan-out of a parallel environment
(spec section 4.3): the batched action is split across the workers (a
mismatched batch of actions is a validation error), each worker steps, and
the transitions are gathered in worker order. -/
def stepAll {σ : Type} :
    List (Env σ) → List Tensor → Except EnvError (List StepTd × List (Env σ))
  | [], [] => .ok ([], [])
  | e :: es, a :: rest =>
    match stepEnv e a with
    | .error err => .error err
    | .ok r =>
      match stepAll es rest with
      | .error err => .error err
      | .ok rs => .ok (r.1 :: rs.1, r.2 :: rs.2)
  | _, _ => .error .validationError

/-- Modelled from the spec: the seeding fan-out of a parallel environment
(spec section 4.3): worker `i` receives `seed + i`, and the per-worker
effective seeds are gathered in worker order. -/
def seedAll {σ : Type} : List (Env σ) → Nat → List (Env σ) × List Nat
  | [], _ => ([], [])
  | e :: es, seed =>
    let r := set_seed e seed
    let rs := seedAll es (seed + 1)
    (r.1 :: rs.1, r.2 :: rs.2)

/-- Modelled from the spec: a parallel environment owning a fixed list of
worker environment instances (spec section 4.3). -/
structure PEnv (σ : Type) where
  workers : List (Env σ)

/-- Parallel `reset()`: fan out and gather into one batched transition,
whose leading batch dimension is the length of the gathered list. -/
def pReset {σ : Type} (p : PEnv σ) :
    Except EnvError (List StepTd × PEnv σ) :=
  match resetAll p.workers with
  | .error err => .error err
  | .ok r => .ok (r.1, ⟨r.2⟩)

/-- Parallel `step(actions)`: fan out and gather. -/
def pStep {σ : Type} (p : PEnv σ) (acts : List Tensor) :
    Except EnvError (List StepTd × PEnv σ) :=
  match stepAll p.workers acts with
  | .error err => .error err
  | .ok r => .ok (r.1, ⟨r.2⟩)

/-- Parallel `set_seed(seed)`: fan out to every worker and gather the
effective seeds. -/
def pSetSeed {σ : Type} (p : PEnv σ) (seed : Nat) : PEnv σ × List Nat :=
  let r := seedAll p.workers seed
  (⟨r.1⟩, r.2)

/-- The parallel toy environment of width 3 used as the C5 witness. -/
def pToy : PEnv Nat := ⟨[fourStepEnv, fourStepEnv, fourStepEnv]⟩

/-- The reset transition every worker of `pToy` produces. -/
def toyResetTd : StepTd := ⟨[("observation", obsT 0)], actT, 0, false⟩

/-- The step transition every worker of `pToy` produces on action `actT`. -/
def toyStepTd : StepTd := ⟨[("observation", obsT 1)], actT, 1, false⟩

/- ------------------------------------------------------------------ -/
/- Natively batched environment, modelled from spec sections 3 and 6   -/
/- ------------------------------------------------------------------ -/

/-- A batched transition: its batch shape (the logical batching
dimensions) and its entries. -/
structure BatchTd where
  batchShape : List Nat
  entries : List (String × Tensor)
deriving DecidableEq

/-- Modelled from the spec: a natively batched simulator (jumanji-style,
spec sections 3 and 6; the JumanjiEnv wrapper source is not in the
repository's files): reset and step act on whole batched states. -/
structure BSim (σb : Type) where
  init : Nat → σb
  step : σb → σb
  obs : σb → List (String × Tensor)

/-- Modelled from the spec: an environment over a natively batched
simulator, constructed with a `batch_size` tuple (possibly empty or
multi-dimensional). -/
structure BatchedEnv (σb : Type) where
  sim : BSim σb
  batch_size : List Nat
  seedv : Nat

/-- Batched `reset()`: the transition carries the environment's
`batch_size` as its batch shape. -/
def bReset {σb : Type} (env : BatchedEnv σb) : BatchTd × σb :=
  let s := env.sim.init env.seedv
  (⟨env.batch_size, env.sim.obs s⟩, s)

/-- The per-step batched transitions of a batched rollout: each step's
transition carries the environment's `batch_size`. -/
def bStepTds {σb : Type} (env : BatchedEnv σb) : Nat → σb → List BatchTd
  | 0, _ => []
  | Nat.succ n, s =>
    let s1 := env.sim.step s
    ⟨env.batch_size, env.sim.obs s1⟩ :: bStepTds env n s1

/-- Stacking a trajectory of per-step batched transitions appends exactly
one trailing time dimension (the trajectory length) to the batch shape. -/
def stackTds (B : List Nat) (tds : List BatchTd) : BatchTd :=
  ⟨B ++ [tds.length], (tds.map BatchTd.entries).flatten⟩

/-- Batched `rollout(max_steps)`: step `max_steps` times from the reset
state and stack the per-step transitions along a trailing time
dimension. -/
def bRollout {σb : Type} (env : BatchedEnv σb) (max_steps : Nat) : BatchTd :=
  stackTds env.batch_size (bStepTds env max_steps (bReset env).2)

/- ------------------------------------------------------------------ -/
/- Data collector, modelled from spec section 4.5                      -/
/- ------------------------------------------------------------------ -/

/-- Modelled from the spec: the collector's frame buffer drained into
consecutive full batches of `F` frames each (spec section 4.5: the
iterator yields batches of exactly `frames_per_batch` frames and blocks
until a full batch is assembled, so no partial batch is ever yielded).
The first argument is a structural bound on the recursion, instantiated
with the buffer length. -/
def drainBatches {α : Type} : Nat → Nat → List α → List (List α)
  | 0, _, _ => []
  | Nat.succ fuel, F, buf =>
    if 0 < F ∧ F ≤ buf.length then
      buf.take F :: drainBatches fuel F (buf.drop F)
    else []

/-- Modelled from the spec: the data collector's aggregation state
(spec section 4.5, whose source is not in the repository's files): the
frames accumulated from the worker processes, the `frames_per_batch`
configuration, and whether `shutdown()` has been called. -/
structure Collector where
  pending : List StepTd
  frames_per_batch : Nat
  isShutdown : Bool
deriving DecidableEq

/-- Errors of the collector (spec section 7b: sequencing errors). -/
inductive CollectorError where
  | iterationAfterShutdown
deriving DecidableEq

/-- Modelled from the spec: `shutdown()` (spec section 4.5) — releases the
worker resources and marks the collector closed. -/
def shutdown (c : Collector) : Collector := { c with isShutdown := true }

/-- Modelled from the spec: one advance of the collector's iterator
(spec sections 4.5 and 7b): a state error after shutdown; otherwise the
next full frame batch when enough frames are pending, or `none` when the
iterator would block waiting for more frames. -/
def nextBatch (c : Collector) :
    Except CollectorError (Option (List StepTd) × Collector) :=
  if c.isShutdown then .error .iterationAfterShutdown
  else if 0 < c.frames_per_batch ∧ c.frames_per_batch ≤ c.pending.length then
    .ok (some (c.pending.take c.frames_per_batch),
         { c with pending := c.pending.drop c.frames_per_batch })
  else .ok (none, c)

/-- All batches the collector will yield from its pending frames. -/
def collectAll (c : Collector) : List (List StepTd) :=
  drainBatches c.pending.length c.frames_per_batch c.pending

/-- Modelled from the spec: the `split_trajs` reshaping of one yielded
batch into `W` per-trajectory rows (spec section 4.5; section 7d makes a
`frames_per_batch` not divisible by the worker count a configuration
error): the batch is cut at its trajectory boundaries into `W` rows of
`length / W` frames. -/
def splitTrajs (W : Nat) (b : List StepTd) : List (List StepTd) :=
  drainBatches b.length (b.length / W) b

/-- A contentless frame for the collector witness. -/
def tdNil : StepTd := ⟨[], actT, 0, false⟩

/-- The toy collector of the C3 witness: 42 pending frames,
`frames_per_batch = 21`. -/
def collectorToy : Collector := ⟨List.replicate 42 tdNil, 21, false⟩

/-- One batch of 21 frames the toy collector yields. -/
def batchToy : List StepTd := List.replicate 21 tdNil

/-- C1: for any environment wrapper (any simulator, any frame-skip
configuration) and any fixed seed, two independent runs of
set_seed(seed); reset(); rollout(max_steps) — regardless of the two
instances' prior episode state, RNG state or stored seed — return the same
effective seed, identical reset transitions and identical rollout
trajectories: seeding erases every run-relevant piece of wrapper state and
the simulator is a deterministic function. -/
theorem run_determinism_fixed_seed {σ : Type} (sim : Sim σ) (fs : Nat)
    (st1 st2 : Option σ) (rng1 rng2 sd1 sd2 : Nat) (seed max_steps : Nat) :
    runOnce ⟨sim, fs, st1, rng1, sd1⟩ seed max_steps =
      runOnce ⟨sim, fs, st2, rng2, sd2⟩ seed max_steps := rfl

/-- C10: with `wrapper = None` the instantiated module is passed to
`TensorDictModule` unwrapped; with `wrapper = "normal_param"` it is wrapped
in `NormalParamWrapper` first; with any other non-None wrapper the call
raises `KeyError` from the `_WRAPPER_DICT` lookup and no `TensorDictModule`
is constructed. -/
theorem partial_tensordictmodule_wrapper_cases {α : Type}
    (pm : α → PyModule) (kw : α) (ink outk : List String)
    (sp : Option Spec) (sf : Bool) (w : String)
    (hw : w ≠ "normal_param") :
    partial_tensordictmodule pm kw ink outk sp sf none =
      .ok ⟨pm kw, ink, outk, sp, sf⟩ ∧
    partial_tensordictmodule pm kw ink outk sp sf (some "normal_param") =
      .ok ⟨PyModule.NormalParamWrapper (pm kw), ink, outk, sp, sf⟩ ∧
    partial_tensordictmodule pm kw ink outk sp sf (some w) =
      .error (.keyError w) := by
  refine ⟨rfl, rfl, ?_⟩
  have hbeq : (w == "normal_param") = false := by
    simp [hw]
  simp [partial_tensordictmodule, dictGet, _WRAPPER_DICT, List.lookup, hbeq]

/-- C10 witness: the three cases at a concrete partial module, key lists and
the unknown wrapper string "other". -/
theorem partial_tensordictmodule_wrapper_cases_witness :
    partial_tensordictmodule (fun _ => PyModule.instantiated 0) () ["a"] ["b"]
      none false none =
      .ok ⟨PyModule.instantiated 0, ["a"], ["b"], none, false⟩ ∧
    partial_tensordictmodule (fun _ => PyModule.instantiated 0) () ["a"] ["b"]
      none false (some "normal_param") =
      .ok ⟨PyModule.NormalParamWrapper (PyModule.instantiated 0), ["a"], ["b"],
        none, false⟩ ∧
    partial_tensordictmodule (fun _ => PyModule.instantiated 0) () ["a"] ["b"]
      none false (some "other") =
      .error (.keyError "other") :=
  partial_tensordictmodule_wrapper_cases (fun _ => PyModule.instantiated 0)
    () ["a"] ["b"] none false "other" (by decide)

/-- A tensor that validates against a spec carries the spec's shape, dtype
and device. -/
theorem validate_meta {sp : Spec} {t : Tensor} (h : validate sp t = true) :
    t.shape = sp.shape ∧ t.dtype = sp.dtype ∧ t.device = sp.device := by
  simp only [validate, Bool.and_eq_true, beq_iff_eq] at h
  exact ⟨h.1.1, h.1.2, h.2⟩

/-- A successfully read observation collection carries exactly the keys of
the spec list, in order, each with the spec's shape, dtype and device. -/
theorem readObs_meta :
    ∀ (specs : List (String × Spec)) (raw td : List (String × Tensor)),
      readObs specs raw = .ok td → tdMeta td = specMeta specs := by
  intro specs
  induction specs with
  | nil =>
    intro raw td h
    simp only [readObs, Except.ok.injEq] at h
    simp [← h, tdMeta, specMeta]
  | cons p rest ih =>
    intro raw td h
    obtain ⟨k, sp⟩ := p
    simp only [readObs] at h
    split at h
    · exact Except.noConfusion h
    · rename_i t hl
      split at h
      · rename_i hv
        split at h
        · rename_i td' hr
          simp only [Except.ok.injEq] at h
          obtain ⟨hsh, hdt, hdev⟩ := validate_meta hv
          subst h
          simp only [tdMeta, specMeta, List.map_cons] at ih ⊢
          rw [hsh, hdt, hdev, ih raw td' hr]
        · exact Except.noConfusion h
      · exact Except.noConfusion h

/-- The fake tensordict's metadata is exactly the spec list's metadata. -/
theorem fake_tensordict_meta (specs : List (String × Spec)) :
    tdMeta (fake_tensordict specs) = specMeta specs := by
  simp [tdMeta, fake_tensordict, specMeta, List.map_map, zeros, Function.comp]

/-- Every transition of a successful rollout has the metadata of the fake
transition, provided the action sampler draws within the action spec. -/
theorem rolloutSteps_meta {σ : Type} (sim : Sim σ) (fs : Nat)
    (hdraw : ∀ rng, validate sim.actionSpec (sim.drawAction rng).1 = true) :
    ∀ (fuel : Nat) (s : σ) (rng : Nat) (tds : List StepTd),
      rolloutSteps sim fs fuel s rng = .ok tds →
      ∀ td ∈ tds, stepMeta td = stepMeta (fake_step sim) := by
  intro fuel
  induction fuel with
  | zero =>
    intro s rng tds h
    simp only [rolloutSteps, Except.ok.injEq] at h
    simp [← h]
  | succ m ih =>
    intro s rng tds h
    simp only [rolloutSteps] at h
    have hact := validate_meta (hdraw rng)
    split at h
    · exact Except.noConfusion h
    · rename_i obs hr
      have hobs : tdMeta obs = tdMeta (fake_step sim).obs := by
        rw [readObs_meta _ _ _ hr, fake_step, fake_tensordict_meta]
      split at h
      · simp only [Except.ok.injEq] at h
        subst h
        intro td htd
        simp only [List.mem_singleton] at htd
        subst htd
        simp [stepMeta, hobs, hact.1, hact.2.1, hact.2.2, fake_step, zeros]
      · split at h
        · exact Except.noConfusion h
        · rename_i tds' hrec
          simp only [Except.ok.injEq] at h
          subst h
          intro td htd
          rcases List.mem_cons.mp htd with hhd | htl
          · subst hhd
            simp [stepMeta, hobs, hact.1, hact.2.1, hact.2.2, fake_step, zeros]
          · exact ih _ _ _ hrec td htl

/-- C2: for every environment whose action sampler draws within the action
spec, `fake_tensordict` (packaged as the fake per-step transition
`fake_step`) has exactly the keys of any real rollout's per-step
transition, and for every key the fake tensor's shape, dtype and device
equal the real one's; the fake transition is computed from the spec
objects alone, never from the simulator (`fake_step`/`fake_tensordict`
take no simulator state). -/
theorem fake_tensordict_fidelity {σ : Type} (e : Env σ) (max_steps : Nat)
    (hdraw : ∀ rng, validate e.sim.actionSpec (e.sim.drawAction rng).1 = true)
    (tds : List StepTd) (h : rollout e max_steps = .ok tds)
    (td : StepTd) (htd : td ∈ tds) :
    stepMeta (fake_step e.sim) = stepMeta td := by
  unfold rollout at h
  cases hs : e.state with
  | none => rw [hs] at h; exact absurd h (by simp)
  | some s =>
    rw [hs] at h
    exact (rolloutSteps_meta e.sim e.frame_skip hdraw max_steps s e.rng tds h
      td htd).symm

/-- C2 witness: the fake transition of the 4-step toy environment matches
the metadata of the first transition of a real 2-step rollout. -/
theorem fake_tensordict_fidelity_witness :
    stepMeta (fake_step fourStepEnv.sim) =
      stepMeta ⟨[("observation", obsT 1)], actT, 1, false⟩ :=
  fake_tensordict_fidelity fourStepEnv 2 (fun _ => rfl)
    [⟨[("observation", obsT 1)], actT, 1, false⟩,
     ⟨[("observation", obsT 2)], actT, 1, false⟩]
    rfl ⟨[("observation", obsT 1)], actT, 1, false⟩ (by decide)

/-- The frame-skip loop is the n-fold native step with the rewards of all
skipped native steps summed. -/
theorem skipSteps_eq {σ : Type} (sim : Sim σ) (a : Tensor) :
    ∀ (n : Nat) (s : σ),
      skipSteps sim n s a =
        ((fun t => sim.step t a)^[n] s,
         ((List.range n).map
           (fun i => sim.reward ((fun t => sim.step t a)^[i + 1] s))).sum) := by
  intro n
  induction n with
  | zero => intro s; simp [skipSteps]
  | succ m ih =>
    intro s
    simp only [skipSteps, ih (sim.step s a)]
    rw [List.range_succ_eq_map]
    simp only [List.map_cons, List.sum_cons, List.map_map, Prod.mk.injEq,
      Function.iterate_succ_apply, Function.iterate_one]
    refine ⟨trivial, ?_⟩
    congr 1

/-- C4: a wrapper constructed with `frame_skip = N` applies the action for
`N` consecutive native simulator steps on `step(action)` and returns the
single final transition: the new wrapper state is the N-fold native step of
the old one, the transition's reward is the sum of the rewards of the N
skipped native steps, its done flag and observation are those of the final
native state (and the recorded action is the one given). -/
theorem frame_skip_semantics {σ : Type} (e : Env σ) (a : Tensor) (s : σ)
    (td : StepTd) (e2 : Env σ) (hs : e.state = some s)
    (h : stepEnv e a = .ok (td, e2)) :
    e2.state = some ((fun t => e.sim.step t a)^[e.frame_skip] s) ∧
    td.reward = ((List.range e.frame_skip).map
      (fun i => e.sim.reward ((fun t => e.sim.step t a)^[i + 1] s))).sum ∧
    td.done = e.sim.done ((fun t => e.sim.step t a)^[e.frame_skip] s) ∧
    readObs e.sim.obsSpecs
      (e.sim.rawObs ((fun t => e.sim.step t a)^[e.frame_skip] s)) =
      .ok td.obs ∧
    td.action = a := by
  unfold stepEnv at h
  split at h
  · exact Except.noConfusion h
  · rename_i s' heq
    rw [hs] at heq
    injection heq with hss
    subst hss
    split at h
    · simp only [skipSteps_eq] at h
      split at h
      · exact Except.noConfusion h
      · rename_i obs hr
        simp only [Except.ok.injEq, Prod.mk.injEq] at h
        obtain ⟨htd, he2⟩ := h
        subst htd
        subst he2
        exact ⟨rfl, rfl, rfl, hr, rfl⟩
    · exact Except.noConfusion h

/-- C4 witness: the 4-step toy simulator wrapped with `frame_skip = 3`,
stepped once from state 0: the final state is the 3-fold native step, the
reward 3 accumulates the three skipped unit rewards, and the transition is
the final native state's. -/
theorem frame_skip_semantics_witness :
    ({ skipEnv with state := some 3 } : Env Nat).state =
      some ((fun t => skipEnv.sim.step t actT)^[skipEnv.frame_skip] 0) ∧
    (3 : Int) = ((List.range skipEnv.frame_skip).map
      (fun i => skipEnv.sim.reward
        ((fun t => skipEnv.sim.step t actT)^[i + 1] 0))).sum ∧
    false = skipEnv.sim.done
      ((fun t => skipEnv.sim.step t actT)^[skipEnv.frame_skip] 0) ∧
    readObs skipEnv.sim.obsSpecs
      (skipEnv.sim.rawObs
        ((fun t => skipEnv.sim.step t actT)^[skipEnv.frame_skip] 0)) =
      .ok [("observation", obsT 3)] ∧
    actT = actT :=
  frame_skip_semantics skipEnv actT 0
    ⟨[("observation", obsT 3)], actT, 3, false⟩
    { skipEnv with state := some 3 } rfl rfl

/-- A successful rollout never exceeds its step budget. -/
theorem rolloutSteps_length {σ : Type} (sim : Sim σ) (fs : Nat) :
    ∀ (fuel : Nat) (s : σ) (rng : Nat) (tds : List StepTd),
      rolloutSteps sim fs fuel s rng = .ok tds → tds.length ≤ fuel := by
  intro fuel
  induction fuel with
  | zero =>
    intro s rng tds h
    simp only [rolloutSteps, Except.ok.injEq] at h
    simp [← h]
  | succ m ih =>
    intro s rng tds h
    simp only [rolloutSteps] at h
    split at h
    · exact Except.noConfusion h
    · rename_i obs hr
      split at h
      · simp only [Except.ok.injEq] at h
        subst h
        simp
      · split at h
        · exact Except.noConfusion h
        · rename_i tds' hrec
          simp only [Except.ok.injEq] at h
          subst h
          simpa using Nat.succ_le_succ (ih _ _ _ hrec)

/-- With a positive step budget, a successful rollout is nonempty. -/
theorem rolloutSteps_ne_nil {σ : Type} (sim : Sim σ) (fs m : Nat) (s : σ)
    (rng : Nat) (tds : List StepTd)
    (h : rolloutSteps sim fs (m + 1) s rng = .ok tds) : tds ≠ [] := by
  simp only [rolloutSteps] at h
  split at h
  · exact Except.noConfusion h
  · rename_i obs hr
    split at h
    · simp only [Except.ok.injEq] at h; subst h; simp
    · split at h
      · exact Except.noConfusion h
      · rename_i tds' hrec
        simp only [Except.ok.injEq] at h; subst h; simp

/-- Every transition of a successful rollout except the last one is
non-terminal: the loop stops as soon as the simulator reports done. -/
theorem rolloutSteps_dropLast {σ : Type} (sim : Sim σ) (fs : Nat) :
    ∀ (fuel : Nat) (s : σ) (rng : Nat) (tds : List StepTd),
      rolloutSteps sim fs fuel s rng = .ok tds →
      ∀ td ∈ tds.dropLast, td.done = false := by
  intro fuel
  induction fuel with
  | zero =>
    intro s rng tds h
    simp only [rolloutSteps, Except.ok.injEq] at h
    simp [← h]
  | succ m ih =>
    intro s rng tds h
    simp only [rolloutSteps] at h
    split at h
    · exact Except.noConfusion h
    · rename_i obs hr
      split at h
      · simp only [Except.ok.injEq] at h; subst h; simp
      · split at h
        · exact Except.noConfusion h
        · rename_i tds' hrec
          simp only [Except.ok.injEq] at h
          subst h
          intro td htd
          cases tds' with
          | nil => simp at htd
          | cons y ys =>
            rw [List.dropLast_cons₂] at htd
            rcases List.mem_cons.mp htd with hhd | htl
            · subst hhd; rfl
            · exact ih _ _ _ hrec td htl

/-- When a successful rollout stops strictly before its step budget, its
last transition is terminal: only episode termination stops it early. -/
theorem rolloutSteps_last {σ : Type} (sim : Sim σ) (fs : Nat) :
    ∀ (fuel : Nat) (s : σ) (rng : Nat) (tds : List StepTd) (td : StepTd),
      rolloutSteps sim fs fuel s rng = .ok tds → tds.length < fuel →
      tds.getLast? = some td → td.done = true := by
  intro fuel
  induction fuel with
  | zero => intro s rng tds td h hlen hlast; omega
  | succ m ih =>
    intro s rng tds td h hlen hlast
    simp only [rolloutSteps] at h
    split at h
    · exact Except.noConfusion h
    · rename_i obs hr
      split at h
      · simp only [Except.ok.injEq] at h
        subst h
        simp only [List.getLast?_singleton, Option.some.injEq] at hlast
        rw [← hlast]
      · split at h
        · exact Except.noConfusion h
        · rename_i tds' hrec
          simp only [Except.ok.injEq] at h
          subst h
          cases tds' with
          | nil =>
            cases m with
            | zero => simp at hlen
            | succ k => exact absurd rfl (rolloutSteps_ne_nil sim fs k _ _ _ hrec)
          | cons y ys =>
            rw [List.getLast?_cons_cons] at hlast
            refine ih _ _ _ td hrec ?_ hlast
            simp only [List.length_cons] at hlen ⊢
            omega

/-- C8: a rollout terminates when either the simulator reports episode
termination or the step budget `max_steps` is reached, whichever comes
first: a successful rollout has at most `max_steps` transitions, only its
last transition can be terminal, and whenever it stops strictly before
`max_steps` its last transition is terminal. -/
theorem rollout_stops_at_termination_or_max {σ : Type} (e : Env σ)
    (max_steps : Nat) (tds : List StepTd) (h : rollout e max_steps = .ok tds) :
    tds.length ≤ max_steps ∧
    (∀ td ∈ tds.dropLast, td.done = false) ∧
    (∀ td, tds.length < max_steps → tds.getLast? = some td →
      td.done = true) := by
  unfold rollout at h
  split at h
  · exact Except.noConfusion h
  · rename_i s heq
    exact ⟨rolloutSteps_length e.sim e.frame_skip max_steps s e.rng tds h,
           rolloutSteps_dropLast e.sim e.frame_skip max_steps s e.rng tds h,
           fun td hlen hlast =>
             rolloutSteps_last e.sim e.frame_skip max_steps s e.rng tds td h
               hlen hlast⟩

/-- C8 witness: the deterministic toy environment with 4-step episodes,
rolled out with `max_steps = 10`: the rollout has exactly 4 transitions,
the first three non-terminal and the 4th terminal. -/
theorem rollout_stops_witness :
    rollout fourStepEnv 10 = .ok fourStepTds ∧
    fourStepTds.length = 4 ∧
    fourStepTds.getLast? = some ⟨[("observation", obsT 4)], actT, 1, true⟩ ∧
    (fourStepTds.length ≤ 10 ∧
     (∀ td ∈ fourStepTds.dropLast, td.done = false) ∧
     (∀ td, fourStepTds.length < 10 → fourStepTds.getLast? = some td →
       td.done = true)) :=
  ⟨rfl, rfl, rfl,
   rollout_stops_at_termination_or_max fourStepEnv 10 fourStepTds rfl⟩

/-- C7 (amended): repeating a run with the same seed and unchanged inputs
reproduces the reset transition and trajectory exactly (for every
environment); changing only the seed can change the trajectory — the
seed-sensitive environment `seedEnv` yields different trajectories under
seeds 0 and 1 — but not every environment's trajectory differs under a
seed change. -/
theorem seed_reproducibility_and_sensitivity :
    (∀ (σ : Type) (sim : Sim σ) (fs : Nat) (st1 st2 : Option σ)
        (rng1 rng2 sd1 sd2 seed max_steps : Nat),
        runOnce ⟨sim, fs, st1, rng1, sd1⟩ seed max_steps =
          runOnce ⟨sim, fs, st2, rng2, sd2⟩ seed max_steps) ∧
    (runOnce seedEnv 0 5).2 ≠ (runOnce seedEnv 1 5).2 :=
  ⟨fun _ _ _ _ _ _ _ _ _ _ _ => rfl, by decide⟩

/-- C7 counterexample: for the seed-insensitive environment `constEnv`,
changing only the seed (0 to 1, everything else fixed) does NOT change the
reset transition or the trajectory, refuting the claim's universal
quantification over environments. -/
theorem seed_change_counterexample :
    (0 : Nat) ≠ 1 ∧ (runOnce constEnv 0 5).2 = (runOnce constEnv 1 5).2 :=
  ⟨by decide, by decide⟩

/-- The reset fan-out gathers one transition and one updated worker per
worker environment. -/
theorem resetAll_lengths {σ : Type} :
    ∀ (es : List (Env σ)) (r : List StepTd × List (Env σ)),
      resetAll es = .ok r → r.1.length = es.length ∧ r.2.length = es.length := by
  intro es
  induction es with
  | nil =>
    intro r h
    simp only [resetAll, Except.ok.injEq] at h
    simp [← h]
  | cons e es ih =>
    intro r h
    simp only [resetAll] at h
    split at h
    · exact Except.noConfusion h
    · split at h
      · exact Except.noConfusion h
      · rename_i r1 hr1 rs hrs
        simp only [Except.ok.injEq] at h
        subst h
        have := ih rs hrs
        simp [this.1, this.2]

/-- The step fan-out gathers one transition and one updated worker per
worker environment. -/
theorem stepAll_lengths {σ : Type} :
    ∀ (es : List (Env σ)) (acts : List Tensor)
      (r : List StepTd × List (Env σ)),
      stepAll es acts = .ok r →
      r.1.length = es.length ∧ r.2.length = es.length := by
  intro es
  induction es with
  | nil =>
    intro acts r h
    cases acts with
    | nil =>
      simp only [stepAll, Except.ok.injEq] at h
      simp [← h]
    | cons a rest => exact Except.noConfusion h
  | cons e es ih =>
    intro acts r h
    cases acts with
    | nil => exact Except.noConfusion h
    | cons a rest =>
      simp only [stepAll] at h
      split at h
      · exact Except.noConfusion h
      · split at h
        · exact Except.noConfusion h
        · rename_i r1 hr1 rs hrs
          simp only [Except.ok.injEq] at h
          subst h
          have := ih rest rs hrs
          simp [this.1, this.2]

/-- The seeding fan-out reaches every worker and gathers one effective
seed per worker. -/
theorem seedAll_lengths {σ : Type} :
    ∀ (es : List (Env σ)) (seed : Nat),
      (seedAll es seed).1.length = es.length ∧
      (seedAll es seed).2.length = es.length := by
  intro es
  induction es with
  | nil => intro seed; simp [seedAll]
  | cons e es ih =>
    intro seed
    simp [seedAll, (ih (seed + 1)).1, (ih (seed + 1)).2]

/-- C5: for a parallel environment over W worker instances, `reset()`
gathers a batched transition whose leading batch dimension (the length of
the gathered list) is exactly W, `step` likewise fans out and gathers a
transition of leading batch dimension W, and `set_seed` fans out to all W
workers and gathers W effective seeds. -/
theorem parallel_fan_out_width {σ : Type} (p : PEnv σ) (W : Nat)
    (hW : p.workers.length = W) (tds : List StepTd) (p2 : PEnv σ)
    (hr : pReset p = .ok (tds, p2)) (acts : List Tensor)
    (tds2 : List StepTd) (p3 : PEnv σ)
    (hs : pStep p2 acts = .ok (tds2, p3)) (seed : Nat) :
    tds.length = W ∧ p2.workers.length = W ∧ tds2.length = W ∧
    p3.workers.length = W ∧ (pSetSeed p seed).1.workers.length = W ∧
    (pSetSeed p seed).2.length = W := by
  unfold pReset at hr
  split at hr
  · exact Except.noConfusion hr
  · rename_i r hra
    simp only [Except.ok.injEq, Prod.mk.injEq] at hr
    obtain ⟨htds, hp2⟩ := hr
    subst htds
    have hres := resetAll_lengths p.workers r hra
    unfold pStep at hs
    split at hs
    · exact Except.noConfusion hs
    · rename_i r2 hsa
      simp only [Except.ok.injEq, Prod.mk.injEq] at hs
      obtain ⟨htds2, hp3⟩ := hs
      subst htds2
      have hstep := stepAll_lengths p2.workers acts r2 hsa
      have hw2 : p2.workers.length = W := by
        rw [← hp2]
        simpa [hW] using hres.2
      refine ⟨by simpa [hW] using hres.1, hw2, by simpa [hw2] using hstep.1,
              ?_, ?_, ?_⟩
      · rw [← hp3]
        simpa [hw2] using hstep.2
      · simpa [pSetSeed, hW] using (seedAll_lengths p.workers seed).1
      · simpa [pSetSeed, hW] using (seedAll_lengths p.workers seed).2

/-- C5 witness: the width-3 parallel toy environment: reset, a step on
three copies of the toy action, and seeding all gather width-3 results. -/
theorem parallel_fan_out_width_witness :
    [toyResetTd, toyResetTd, toyResetTd].length = 3 ∧
    (⟨[{ fourStepEnv with state := some 0 },
       { fourStepEnv with state := some 0 },
       { fourStepEnv with state := some 0 }]⟩ : PEnv Nat).workers.length = 3 ∧
    [toyStepTd, toyStepTd, toyStepTd].length = 3 ∧
    (⟨[{ fourStepEnv with state := some 1 },
       { fourStepEnv with state := some 1 },
       { fourStepEnv with state := some 1 }]⟩ : PEnv Nat).workers.length = 3 ∧
    (pSetSeed pToy 7).1.workers.length = 3 ∧
    (pSetSeed pToy 7).2.length = 3 :=
  parallel_fan_out_width pToy 3 rfl
    [toyResetTd, toyResetTd, toyResetTd]
    ⟨[{ fourStepEnv with state := some 0 },
      { fourStepEnv with state := some 0 },
      { fourStepEnv with state := some 0 }]⟩ rfl
    [actT, actT, actT]
    [toyStepTd, toyStepTd, toyStepTd]
    ⟨[{ fourStepEnv with state := some 1 },
      { fourStepEnv with state := some 1 },
      { fourStepEnv with state := some 1 }]⟩ rfl 7

/-- C6: a natively batched environment constructed with batch size B (a
tuple, possibly empty or multi-dimensional) resets to a transition whose
batch size is exactly B, and its rollout is a trajectory whose batch size
is B with exactly one trailing time dimension appended. -/
theorem batched_env_batch_size {σb : Type} (env : BatchedEnv σb)
    (max_steps : Nat) :
    (bReset env).1.batchShape = env.batch_size ∧
    (bRollout env max_steps).batchShape = env.batch_size ++ [max_steps] ∧
    (bRollout env max_steps).batchShape.dropLast = env.batch_size := by
  have hlen : ∀ (n : Nat) (s : σb), (bStepTds env n s).length = n := by
    intro n
    induction n with
    | zero => intro s; rfl
    | succ m ih => intro s; simp [bStepTds, ih]
  refine ⟨rfl, ?_, ?_⟩
  · simp [bRollout, stackTds, hlen]
  · simp [bRollout, stackTds, hlen, List.dropLast_concat]

/-- Every batch the drain yields has exactly F frames. -/
theorem drainBatches_mem_length {α : Type} :
    ∀ (fuel F : Nat) (xs : List α) (b : List α),
      b ∈ drainBatches fuel F xs → b.length = F := by
  intro fuel
  induction fuel with
  | zero => intro F xs b h; simp [drainBatches] at h
  | succ m ih =>
    intro F xs b h
    simp only [drainBatches] at h
    split at h
    · rename_i hc
      rcases List.mem_cons.mp h with hb | hb
      · subst hb
        simp only [List.length_take]
        omega
      · exact ih _ _ _ hb
    · simp at h

/-- With enough fuel, the drain yields exactly length / F batches. -/
theorem drainBatches_count {α : Type} :
    ∀ (fuel F : Nat) (xs : List α), 0 < F → xs.length ≤ fuel →
      (drainBatches fuel F xs).length = xs.length / F := by
  intro fuel
  induction fuel with
  | zero =>
    intro F xs hF hlen
    have h0 : xs.length = 0 := Nat.le_zero.mp hlen
    simp [drainBatches, h0]
  | succ m ih =>
    intro F xs hF hlen
    simp only [drainBatches]
    split
    · rename_i hc
      rw [List.length_cons,
          ih F (xs.drop F) hF (by simp [List.length_drop]; omega),
          List.length_drop,
          Nat.div_eq_sub_div hF hc.2]
    · rename_i hc
      have hlt : xs.length < F := by
        rcases Decidable.not_and_iff_or_not.mp hc with h1 | h2
        · omega
        · omega
      simp [Nat.div_eq_of_lt hlt]

/-- C3: every batch the collector yields contains exactly
`frames_per_batch` frames, regardless of how the pending frames decompose
into per-environment trajectories (the drain cuts across trajectory
boundaries); and under `split_trajs` with worker count W dividing
`frames_per_batch`, a yielded batch splits into exactly W trajectory rows
of `frames_per_batch / W` frames each, so the product of the batch's
trajectory and time dimensions equals `frames_per_batch`. -/
theorem collector_exact_frames (c : Collector)
    (hF : 0 < c.frames_per_batch) (b : List StepTd) (hb : b ∈ collectAll c)
    (W : Nat) (hW : 0 < W) (hdvd : W ∣ c.frames_per_batch) :
    b.length = c.frames_per_batch ∧
    (splitTrajs W b).length = W ∧
    (∀ row ∈ splitTrajs W b, row.length = c.frames_per_batch / W) ∧
    (splitTrajs W b).length * (c.frames_per_batch / W) =
      c.frames_per_batch := by
  have hlen : b.length = c.frames_per_batch :=
    drainBatches_mem_length _ _ _ b hb
  have hq : 0 < c.frames_per_batch / W :=
    Nat.div_pos (Nat.le_of_dvd hF hdvd) hW
  have hcount : (splitTrajs W b).length = W := by
    unfold splitTrajs
    rw [drainBatches_count b.length (b.length / W) b
          (by rw [hlen]; exact hq) le_rfl, hlen]
    exact Nat.div_div_self hdvd (Nat.pos_iff_ne_zero.mp hF)
  refine ⟨hlen, hcount, ?_, ?_⟩
  · intro row hrow
    have := drainBatches_mem_length _ _ _ row hrow
    rwa [hlen] at this
  · rw [hcount]
    exact Nat.mul_div_cancel' hdvd

/-- C3 witness: the toy collector with `frames_per_batch = 21` and 42
pending frames yields the 21-frame batch `batchToy`, which splits across
W = 3 trajectories into 3 rows of 7 frames, 3 * 7 = 21. -/
theorem collector_exact_frames_witness :
    batchToy.length = collectorToy.frames_per_batch ∧
    (splitTrajs 3 batchToy).length = 3 ∧
    (∀ row ∈ splitTrajs 3 batchToy,
      row.length = collectorToy.frames_per_batch / 3) ∧
    (splitTrajs 3 batchToy).length * (collectorToy.frames_per_batch / 3) =
      collectorToy.frames_per_batch :=
  collector_exact_frames collectorToy (by decide) batchToy (by decide)
    3 (by decide) (by decide)

/-- C9: after `shutdown()` has been called on a data collector, any
subsequent attempt to advance its iterator fails with the sequencing
error `iterationAfterShutdown` rather than yielding further batches. -/
theorem iteration_after_shutdown_fails (c : Collector) :
    nextBatch (shutdown c) = .error .iterationAfterShutdown := by
  simp [nextBatch, shutdown]
